import Mathlib

/-!
Verification of robotframework-pageobjects, src/robotpageobjects/page.py.

The file embeds the three bookkeeping cores of page.py — the keyword/alias
registry (_Keywords), the selector inheritance merge (SelectorsDict.merge and
_SelectorsManagement._get_class_selectors) and relative URL resolution
(_BaseActions._resolve_url with _is_url_absolute) — as executable Lean
definitions, and proves the specified properties about them.

Python strings are modelled as Lean String; the Python 2 str operations the
source uses (slicing, split, replace, startswith) are re-implemented below by
structural recursion on the character list so that every definition evaluates
inside the kernel.  Python exceptions are modelled with Except over an explicit
error type; Python dicts are modelled as association lists in insertion order
with last-write-wins assignment, matching dict assignment semantics (Python 2
dict iteration order is implementation defined; the model iterates in insertion
order, which none of the proved properties depend on).
-/

/-- Test whether the second character list is an initial segment of the first. -/
def listBeginsWith : List Char → List Char → Bool
  | _, [] => true
  | [], _ :: _ => false
  | a :: as, b :: bs => a = b && listBeginsWith as bs

/-- Fuel-driven worker for pySplit; fuel bounds the number of characters
consumed, so the top-level wrapper passes the length of the subject string. -/
def pySplitFuel (sep : List Char) : Nat → List Char → List Char → List String
  | _, cur, [] => [String.mk cur.reverse]
  | 0, cur, rest => [String.mk (cur.reverse ++ rest)]
  | fuel + 1, cur, c :: rest =>
    if listBeginsWith (c :: rest) sep && sep ≠ [] then
      String.mk cur.reverse :: pySplitFuel sep fuel [] (List.drop (sep.length - 1) rest)
    else
      pySplitFuel sep fuel (c :: cur) rest

/-- Model of Python 2 str.split(sep): split on every non-overlapping
occurrence of the separator, scanning left to right. -/
def pySplit (s sep : String) : List String := pySplitFuel sep.data s.data.length [] s.data

/-- Fuel-driven worker for pyReplace, in the same style as pySplitFuel. -/
def pyReplaceFuel (pat repl : List Char) : Nat → List Char → List Char
  | _, [] => []
  | 0, l => l
  | fuel + 1, c :: rest =>
    if listBeginsWith (c :: rest) pat && pat ≠ [] then
      repl ++ pyReplaceFuel pat repl fuel (List.drop (pat.length - 1) rest)
    else
      c :: pyReplaceFuel pat repl fuel rest

/-- Model of Python 2 str.replace(pat, repl): replace every non-overlapping
occurrence of pat, scanning left to right.  (The source never calls replace
with an empty pattern, so that Python corner case is irrelevant here.) -/
def pyReplace (s pat repl : String) : String :=
  String.mk (pyReplaceFuel pat.data repl.data s.data.length s.data)

/-- Model of Python 2 str.startswith. -/
def pyStartsWith (s p : String) : Bool := listBeginsWith s.data p.data

/-- Model of Python 2 string slicing s[:n]. -/
def pySlice (s : String) (n : Nat) : String := String.mk (s.data.take n)

/-- Decidable equality for Except, used to evaluate the embedded operations on
concrete inputs inside proofs. -/
instance exceptDecEq {α β : Type} [DecidableEq α] [DecidableEq β] :
    DecidableEq (Except α β) := fun a b =>
  match a, b with
  | .ok x, .ok y =>
    if h : x = y then .isTrue (by rw [h]) else .isFalse (by simp [h])
  | .error x, .error y =>
    if h : x = y then .isTrue (by rw [h]) else .isFalse (by simp [h])
  | .ok _, .error _ => .isFalse (by simp)
  | .error _, .ok _ => .isFalse (by simp)

/-!
Keyword/alias registry, page.py lines 35-144 (_Keywords).

_Keywords._aliases is a registry mapping a method name to an alias stub; it is
modelled as an association list in registration order.  _Keywords._exclusions
maps method names flagged by not_keyword to True; it is modelled as the list of
flagged names.  _Keywords._alias_delimiter is the literal string "__name__".
-/

/-- Shared substitution step of _Keywords.get_robot_alias (line 70) and
_Keywords.get_funcname_from_robot_alias (line 90):
stub.replace(delimiter, underscore + pageobject_name + underscore). -/
def substituteDelimiter (stub pageobject_name : String) : String :=
  pyReplace stub "__name__" ("_" ++ pageobject_name ++ "_")

/-- Embedding of _Keywords.get_robot_alias, page.py lines 58-75: if the method
name has a registered stub, substitute the delimiter in the stub; otherwise the
default alias is name, underscore, pageobject_name. -/
def get_robot_alias (aliases : List (String × String)) (name pageobject_name : String) :
    String :=
  match aliases.find? (fun p => p.1 == name) with
  | some p => substituteDelimiter p.2 pageobject_name
  | none => name ++ "_" ++ pageobject_name

/-- Embedding of _Keywords.get_funcname_from_robot_alias, page.py lines 77-93:
scan the registry for a stub whose substitution equals the alias and return its
method name; otherwise fall back to alias.replace(underscore + pageobject_name,
empty string). -/
def get_funcname_from_robot_alias (aliases : List (String × String))
    (al pageobject_name : String) : String :=
  match aliases.find? (fun p => al == substituteDelimiter p.2 pageobject_name) with
  | some p => p.1
  | none => pyReplace al ("_" ++ pageobject_name) ""

/-- Embedding of _Keywords.is_method_excluded, page.py lines 48-56:
cls._exclusions.get(name, False). -/
def is_method_excluded (exclusions : List String) (name : String) : Bool :=
  exclusions.contains name

/-!
Selector inheritance merge, page.py lines 171-201 (Override, SelectorsDict)
and 236-285 (_SelectorsManagement._get_class_selectors).
-/

/-- Error type for the Python exceptions the embedded code can raise
(exceptions module of the repository; AttributeError and IndexError are Python
built-ins raised by unguarded attribute access and indexing). -/
inductive PyErr where
  | DuplicateKeyException (key : String)
  | NoBaseUrlException (pageobj : String)
  | AbsoluteUriTemplateException
  | InvalidUriTemplateVariableException (v : String)
  | NoUriAttributeException (pageobj : String)
  | AbsoluteUriAttributeException (pageobj : String)
  | AttributeError (attr : String)
  | IndexError
deriving Repr, DecidableEq

/-- One key/value pair of a class-level _selectors dict.  isOverride records
whether the key was wrapped in the Override marker class (page.py line 171). -/
structure SelDecl where
  key : String
  isOverride : Bool
  value : String
deriving Repr, DecidableEq

/-- State threaded through SelectorsDict.merge: the accumulated dict (plain
string keys, insertion order) plus the keys for which a KeyOverrideWarning was
issued (page.py lines 193-196). -/
structure MergeState where
  dict : List (String × String)
  warnings : List String
deriving Repr, DecidableEq

/-- Python dict membership test, key in d. -/
def dictHasKey (d : List (String × String)) (k : String) : Bool :=
  d.any (fun p => p.1 == k)

/-- Python dict assignment d[k] = v: update in place when the key exists,
append otherwise. -/
def dictSet (d : List (String × String)) (k v : String) : List (String × String) :=
  if dictHasKey d k then d.map (fun p => if p.1 == k then (k, v) else p)
  else d ++ [(k, v)]

/-- One iteration of the loop body of SelectorsDict.merge, page.py lines
189-201: duplicate keys raise DuplicateKeyException unless from_subclass; a
subclass override without the Override marker warns; the assignment
self[str(key)] = value runs in every non-raising branch. -/
def mergeDecl (from_subclass : Bool) (st : MergeState) (decl : SelDecl) :
    Except PyErr MergeState :=
  if dictHasKey st.dict decl.key then
    if from_subclass then
      if !decl.isOverride then
        .ok ⟨dictSet st.dict decl.key decl.value, st.warnings ++ [decl.key]⟩
      else
        .ok ⟨dictSet st.dict decl.key decl.value, st.warnings⟩
    else
      .error (.DuplicateKeyException decl.key)
  else
    .ok ⟨dictSet st.dict decl.key decl.value, st.warnings⟩

/-- Embedding of SelectorsDict.merge, page.py lines 179-201: fold mergeDecl
over the incoming declarations. -/
def mergeSelectors : MergeState → List SelDecl → Bool → Except PyErr MergeState
  | st, [], _ => .ok st
  | st, d :: rest, fs =>
    match mergeDecl fs st d with
    | .error e => .error e
    | .ok st1 => mergeSelectors st1 rest fs

/-- View an already-merged base dict as a list of declarations: merged dicts
store plain string keys (page.py line 201), so the Override marker is never
present when a base dict is merged into a subclass accumulator. -/
def dictToDecls (d : List (String × String)) : List SelDecl :=
  d.map (fun p => ⟨p.1, false, p.2⟩)

/-- The loop at page.py line 280: merge every base class's already-computed
selectors dict into the accumulator with from_subclass left at False. -/
def mergeBaseDicts : MergeState → List MergeState → Except PyErr MergeState
  | st, [] => .ok st
  | st, r :: rs =>
    match mergeSelectors st (dictToDecls r.dict) false with
    | .error e => .error e
    | .ok st1 => mergeBaseDicts st1 rs

mutual
/-- A Python class as _get_class_selectors sees it: its own class-level
_selectors declarations plus its base classes in definition order.  (Ancestors
without a _selectors attribute are filtered out by the hasattr test at page.py
line 276 and contribute nothing, so the model simply omits them.) -/
inductive PyClass where
  | mk (own : List SelDecl) (bases : PyClassList)
/-- List of base classes, mutually inductive with PyClass so that the merge
recursion below is structural. -/
inductive PyClassList where
  | nil
  | cons (c : PyClass) (cs : PyClassList)
end

mutual
/-- Embedding of the inner __get_class_selectors of
_SelectorsManagement._get_class_selectors, page.py lines 271-285: recursively
compute each base's merged dict, merge the base dicts into a fresh
SelectorsDict, then merge the class's own declarations with from_subclass
True.  Warnings emitted anywhere in the recursion are collected in order. -/
def getClassSelectors : PyClass → Except PyErr MergeState
  | .mk own bases =>
    match getBaseSelectors bases with
    | .error e => .error e
    | .ok rs =>
      match mergeBaseDicts ⟨[], rs.foldr (fun r acc => r.warnings ++ acc) []⟩ rs with
      | .error e => .error e
      | .ok st1 => mergeSelectors st1 own true

/-- The list comprehension at page.py line 276: compute every base's merged
selectors, propagating the first raised exception. -/
def getBaseSelectors : PyClassList → Except PyErr (List MergeState)
  | .nil => .ok []
  | .cons c cs =>
    match getClassSelectors c with
    | .error e => .error e
    | .ok r =>
      match getBaseSelectors cs with
      | .error e => .error e
      | .ok rs => .ok (r :: rs)
end

/-!
URL resolution, page.py lines 341-414 (_BaseActions._resolve_url and
_BaseActions._is_url_absolute).

The source delegates template expansion to the external uritemplate package
(RFC 6570).  The two helpers uritemplateVariables and uritemplateExpand below
model uritemplate.variables and uritemplate.expand for the simple variable
expressions the repository uses (brace-delimited comma-separated variable
names, no operators or modifiers): literal text is copied through unchanged and
each expression expands to the values bound to its variables, undefined
variables expanding to nothing.
-/

/-- State machine collecting the variable names of every brace-delimited
expression in a template; models uritemplate.variables. -/
def templateVarsAux : List Char → Bool → List Char → List String → List String
  | [], _, _, acc => acc
  | c :: rest, inExpr, cur, acc =>
    if inExpr then
      if c = '\x7d' then
        templateVarsAux rest false [] (acc ++ pySplit (String.mk cur.reverse) ",")
      else
        templateVarsAux rest true (c :: cur) acc
    else
      if c = '\x7b' then templateVarsAux rest true [] acc
      else templateVarsAux rest false [] acc

/-- Model of uritemplate.variables for simple expressions. -/
def uritemplateVariables (t : String) : List String := templateVarsAux t.data false [] []

/-- Value bound to a variable name in the expansion mapping. -/
def lookupVar (vars : List (String × String)) (n : String) : Option String :=
  (vars.find? (fun p => p.1 == n)).map Prod.snd

/-- Join the defined values of an expression's variables with commas. -/
def joinDefined : List String → String
  | [] => ""
  | [s] => s
  | s :: rest => s ++ "," ++ joinDefined rest

/-- Expand one simple brace expression against the variable mapping. -/
def expandExprModel (vars : List (String × String)) (e : String) : String :=
  joinDefined ((pySplit e ",").filterMap (fun n => lookupVar vars n))

/-- State machine for template expansion; models uritemplate.expand for simple
expressions. -/
def templateExpandAux (vars : List (String × String)) :
    List Char → Bool → List Char → String → String
  | [], _, _, out => out
  | c :: rest, inExpr, cur, out =>
    if inExpr then
      if c = '\x7d' then
        templateExpandAux vars rest false []
          (out ++ expandExprModel vars (String.mk cur.reverse))
      else
        templateExpandAux vars rest true (c :: cur) out
    else
      if c = '\x7b' then templateExpandAux vars rest true [] out
      else templateExpandAux vars rest false [] (out.push c)

/-- Model of uritemplate.expand for simple expressions. -/
def uritemplateExpand (t : String) (vars : List (String × String)) : String :=
  templateExpandAux vars t.data false [] ""

/-- Embedding of _BaseActions._is_url_absolute, page.py lines 409-414:
url[:7] in ["http://", "https://", "file://"].  The slice keeps only seven
characters, faithfully reproducing the source expression. -/
def _is_url_absolute (url : String) : Bool :=
  ["http://", "https://", "file://"].contains (pySlice url 7)

/-- The attributes of a page object instance that _resolve_url reads.  A None
field models an attribute that is not set on the instance (OptionHandler
yields None for an unset baseurl; uri_template and uri are plain optional
class attributes). -/
structure PageObj where
  className : String
  baseurl : Option String
  uri_template : Option String
  uri : Option String

/-- Arguments of a _resolve_url call: no arguments, a non-empty series of
Robot-style name=value strings, or a single Python dictionary. -/
inductive CallArgs where
  | noArgs
  | varStrings (first : String) (rest : List String)
  | varDict (d : List (String × String))

/-- The parsing loop at page.py lines 374-376: split each argument on every
equals sign and bind field zero to field one in the uri_vars dict; an argument
with no equals sign makes split_arg[1] raise IndexError. -/
def parseUriVarStrings : List (String × String) → List String → Except PyErr (List (String × String))
  | acc, [] => .ok acc
  | acc, arg :: rest =>
    match pySplit arg "=" with
    | k :: v :: _ => parseUriVarStrings (dictSet acc k v) rest
    | _ => .error .IndexError

/-- The validation loop at page.py lines 381-387: every supplied variable must
occur among the template's variables, otherwise
InvalidUriTemplateVariableException is raised for the offending name. -/
def checkUriVars (tmplVars : List String) : List (String × String) → Except PyErr Unit
  | [] => .ok ()
  | (k, _) :: rest =>
    if tmplVars.contains k then checkUriVars tmplVars rest
    else .error (.InvalidUriTemplateVariableException k)

/-- The template branch of _resolve_url (page.py lines 358-389), entered when
at least one argument was supplied: read uri_template (AttributeError when the
attribute is missing), reject an absolute template, then parse and validate
the variables and expand baseurl + uri_template. -/
def resolveTemplateBranch (self : PageObj) (baseurl : String)
    (parsedVars : Except PyErr (List (String × String))) : Except PyErr String :=
  match self.uri_template with
  | none => .error (.AttributeError "uri_template")
  | some tmpl =>
    if _is_url_absolute tmpl then .error .AbsoluteUriTemplateException
    else
      match parsedVars with
      | .error e => .error e
      | .ok uri_vars =>
        match checkUriVars (uritemplateVariables tmpl) uri_vars with
        | .error e => .error e
        | .ok _ => .ok (uritemplateExpand (baseurl ++ tmpl) uri_vars)

/-- Embedding of _BaseActions._resolve_url, page.py lines 341-407: require a
baseurl; with arguments, resolve through the template branch (string arguments
are parsed name=value, a dictionary argument is used directly); without
arguments, require a relative uri attribute and return baseurl + uri. -/
def _resolve_url (self : PageObj) (args : CallArgs) : Except PyErr String :=
  match self.baseurl with
  | none => .error (.NoBaseUrlException self.className)
  | some baseurl =>
    match args with
    | .varStrings first rest =>
      resolveTemplateBranch self baseurl (parseUriVarStrings [] (first :: rest))
    | .varDict d =>
      resolveTemplateBranch self baseurl (.ok d)
    | .noArgs =>
      match self.uri with
      | none => .error (.NoUriAttributeException self.className)
      | some u =>
        if _is_url_absolute u then .error (.AbsoluteUriAttributeException self.className)
        else .ok (baseurl ++ u)

/-!
Keyword enumeration, page.py lines 556-596 (Page.get_keyword_names).
-/

/-- One entry of inspect.getmembers(self) as get_keyword_names inspects it:
the attribute name, whether it is a bound method, and whether its underlying
function is found in Selenium2Library.__dict__.values() or in the __dict__ of
one of Selenium2Library's direct base classes (the two identity checks at
page.py lines 580-587). -/
structure Member where
  name : String
  isMethod : Bool
  funcInS2L : Bool
  funcInS2LDirectBase : Bool
deriving Repr, DecidableEq

/-- Embedding of Page.get_keyword_names, page.py lines 556-596: skip
non-methods, skip members whose function lives in Selenium2Library or one of
its direct bases, then keep methods whose name does not start with an
underscore and is not excluded, emitting each survivor's robot alias for the
underscored display name. -/
def get_keyword_names (exclusions : List String) (aliases : List (String × String))
    (underscored_name : String) : List Member → List String
  | [] => []
  | m :: rest =>
    if !m.isMethod then get_keyword_names exclusions aliases underscored_name rest
    else if m.funcInS2L || m.funcInS2LDirectBase then
      get_keyword_names exclusions aliases underscored_name rest
    else if m.isMethod && !(pyStartsWith m.name "_") &&
        !(is_method_excluded exclusions m.name) then
      get_robot_alias aliases m.name underscored_name ::
        get_keyword_names exclusions aliases underscored_name rest
    else get_keyword_names exclusions aliases underscored_name rest

/-!
Claim theorems.
-/

/-- C1: the absoluteness test compares url[:7] — only seven characters —
against the eight-character literal "https://" as well, so a URL that starts
with "https://" is never classified as absolute, and a _resolve_url call with
template variables and an https:// uri_template does not raise
AbsoluteUriTemplateException but resolves normally.  This contradicts the
stated intent (the unreachable "https://" entry in the source's own list). -/
theorem c1_https_escapes_absolute_check :
    _is_url_absolute "https://abs.test/cat" = false ∧
    pyStartsWith "https://abs.test/cat" "https://" = true ∧
    _resolve_url ⟨"P", some "http://x.test", some "https://abs.test/cat/{category}", none⟩
        (.varDict [("category", "home")])
      = .ok "http://x.testhttps://abs.test/cat/home" := by decide

/-- C2 counterexample: resolving baseurl "http://x.test" with uri_template
"cat/{category}" and mapping category=home does not return
"http://x.test/cat/home" — no path separator is inserted between the base URL
and the template. -/
theorem c2_counterexample :
    _resolve_url ⟨"P", some "http://x.test", some "cat/{category}", none⟩
        (.varDict [("category", "home")]) ≠ .ok "http://x.test/cat/home" := by decide

/-- C2 amended: resolving baseurl "http://x.test" with uri_template
"cat/{category}" and mapping category=home returns "http://x.testcat/home":
the base URL and the template are joined by plain string concatenation before
expansion, so no separator appears unless the template carries one. -/
theorem c2_amended_plain_concatenation :
    _resolve_url ⟨"P", some "http://x.test", some "cat/{category}", none⟩
        (.varDict [("category", "home")]) = .ok "http://x.testcat/home" := by decide

/-- C4 counterexample: for a method with no registered alias stub the produced
operation name is not the method name, a space, and the display name. -/
theorem c4_counterexample :
    get_robot_alias [] "search" "Google" ≠ "search" ++ " " ++ "Google" := by decide

/-- C4 amended: for every method name with no registered alias stub and every
display name, the alias is the method name, an underscore, and the display
name (page.py line 73 formats "%s_%s"). -/
theorem c4_default_alias_underscore (aliases : List (String × String))
    (name pageobject_name : String)
    (h : aliases.find? (fun p => p.1 == name) = none) :
    get_robot_alias aliases name pageobject_name = name ++ "_" ++ pageobject_name := by
  unfold get_robot_alias
  rw [h]

/-- C4 witness: the amended statement applied at the empty registry, method
name "search" and display name "Google". -/
theorem c4_default_alias_underscore_witness :
    List.find? (fun p => p.1 == "search") ([] : List (String × String)) = none ∧
    get_robot_alias [] "search" "Google" = "search" ++ "_" ++ "Google" :=
  ⟨by decide, c4_default_alias_underscore [] "search" "Google" (by decide)⟩

/-- C5: the fallback of get_funcname_from_robot_alias uses str.replace, which
removes every occurrence of underscore-plus-display-name, not only a trailing
suffix: reversing the default alias of method "search_google" for display name
"google" yields "search", not "search_google", breaking the round trip that
the source's own comment ("take the class name off the end") describes. -/
theorem c5_replace_removes_inner_occurrences :
    get_robot_alias [] "search_google" "google" = "search_google_google" ∧
    get_funcname_from_robot_alias [] "search_google_google" "google" = "search" := by decide

/-- C6: merging the chain of a leaf class with two unrelated bases BaseA
(defining key "k" as "1") and BaseB (defining key "k" as "2") raises
DuplicateKeyException for "k" rather than keeping either value. -/
theorem c6_unrelated_bases_duplicate_key :
    getClassSelectors (.mk [] (.cons (.mk [⟨"k", false, "1"⟩] .nil)
        (.cons (.mk [⟨"k", false, "2"⟩] .nil) .nil)))
      = .error (.DuplicateKeyException "k") := by decide

/-- C7: merging the linear chain Base (key "a" is "x"), Mid extending Base
(key "b" is "y"), Leaf extending Mid (Override("a") is "z") yields the dict
with "a" mapped to "z" and "b" mapped to "y", with no exception and no
override warning. -/
theorem c7_override_chain :
    getClassSelectors (.mk [⟨"a", true, "z"⟩] (.cons (.mk [⟨"b", false, "y"⟩]
        (.cons (.mk [⟨"a", false, "x"⟩] .nil) .nil)) .nil))
      = .ok ⟨[("a", "z"), ("b", "y")], []⟩ := by decide

/-- C8 counterexample: the argument string "q=a=b" does not bind "q" to the
entire remainder "a=b" after the first equals sign. -/
theorem c8_counterexample :
    parseUriVarStrings [] ["q=a=b"] ≠ .ok [("q", "a=b")] := by decide

/-- C8 amended: an argument string is split on every equals sign and the
resulting mapping binds the first field to the second field only — any text
after a second equals sign is dropped (page.py lines 375-376 index
split_arg[0] and split_arg[1] of the full split). -/
theorem c8_first_two_fields (arg k v : String) (rest : List String)
    (h : pySplit arg "=" = k :: v :: rest) :
    parseUriVarStrings [] [arg] = .ok [(k, v)] := by
  unfold parseUriVarStrings
  rw [h]
  rfl

/-- C8 witness: the amended statement applied at the argument "q=a=b", whose
split fields are "q", "a", "b"; the binding is "q" to "a". -/
theorem c8_first_two_fields_witness :
    pySplit "q=a=b" "=" = "q" :: "a" :: ["b"] ∧
    parseUriVarStrings [] ["q=a=b"] = .ok [("q", "a")] :=
  ⟨by decide, c8_first_two_fields "q=a=b" "q" "a" ["b"] (by decide)⟩

/-- C3 counterexample: with two methods "a" and "b" both registered with the
stub "go__name__", reversing method "b"'s alias for display name "p" does not
recover "b" — the reverse scan returns the first registered method whose
substituted stub matches, namely "a". -/
theorem c3_counterexample :
    ¬ (get_funcname_from_robot_alias [("a", "go__name__"), ("b", "go__name__")]
        (get_robot_alias [("a", "go__name__"), ("b", "go__name__")] "b" "p") "p" = "b") := by
  decide

/-- C3 amended: for every method name m with a registered alias stub, and
every display name d such that no other registered method's substituted stub
collides with m's at d, reversing the alias recovers the method:
get_funcname_from_robot_alias (get_robot_alias m d) d = m. -/
theorem c3_alias_roundtrip (aliases : List (String × String)) (m d stub : String)
    (hm : aliases.find? (fun p => p.1 == m) = some (m, stub))
    (hinj : ∀ p ∈ aliases,
      substituteDelimiter p.2 d = substituteDelimiter stub d → p.1 = m) :
    get_funcname_from_robot_alias aliases (get_robot_alias aliases m d) d = m := by
  have halias : get_robot_alias aliases m d = substituteDelimiter stub d := by
    unfold get_robot_alias
    rw [hm]
  rw [halias]
  unfold get_funcname_from_robot_alias
  have hmem : (m, stub) ∈ aliases := List.mem_of_find?_eq_some hm
  have hsome : (aliases.find?
      (fun p => substituteDelimiter stub d == substituteDelimiter p.2 d)).isSome := by
    rw [List.find?_isSome]
    exact ⟨(m, stub), hmem, by simp⟩
  obtain ⟨p, hp⟩ := Option.isSome_iff_exists.mp hsome
  rw [hp]
  have hpred := List.find?_some hp
  exact hinj p (List.mem_of_find?_eq_some hp) (eq_of_beq hpred).symm

/-- C3 witness: the amended statement applied at the registry holding "search"
with stub "search__name__for" and display name "Google"; the alias is
"search_Google_for" and reversing it recovers "search". -/
theorem c3_alias_roundtrip_witness :
    get_funcname_from_robot_alias [("search", "search__name__for")]
      (get_robot_alias [("search", "search__name__for")] "search" "Google") "Google"
      = "search" :=
  c3_alias_roundtrip [("search", "search__name__for")] "search" "Google" "search__name__for"
    (by decide) (by decide)

/-- C9: every keyword emitted by get_keyword_names derives from a member that
is a method, whose underlying function is defined neither in
Selenium2Library nor in one of its direct base classes, whose name does not
start with an underscore, and which is not registered as excluded; the emitted
string is that method's robot alias.  So a keyword derived from an
automation-library method, an excluded method, or an underscore-named method
never appears, for any member list (hence any subclass depth). -/
theorem c9_keywords_only_clean_methods (exclusions : List String)
    (aliases : List (String × String)) (uname : String) (members : List Member)
    (kw : String) (hkw : kw ∈ get_keyword_names exclusions aliases uname members) :
    ∃ m ∈ members, m.isMethod = true ∧ m.funcInS2L = false ∧
      m.funcInS2LDirectBase = false ∧ pyStartsWith m.name "_" = false ∧
      is_method_excluded exclusions m.name = false ∧
      kw = get_robot_alias aliases m.name uname := by
  induction members with
  | nil => rw [get_keyword_names] at hkw; cases hkw
  | cons m rest ih =>
    rw [get_keyword_names] at hkw
    split at hkw
    · obtain ⟨m0, hm0, hprops⟩ := ih hkw
      exact ⟨m0, List.mem_cons_of_mem m hm0, hprops⟩
    · split at hkw
      · obtain ⟨m0, hm0, hprops⟩ := ih hkw
        exact ⟨m0, List.mem_cons_of_mem m hm0, hprops⟩
      · split at hkw
        · rename_i h1 h2 h3
          rcases List.mem_cons.mp hkw with rfl | hmem
          · refine ⟨m, List.mem_cons_self m rest, ?_, ?_, ?_, ?_, ?_, rfl⟩
            · simpa using h1
            · simp only [Bool.or_eq_true, not_or] at h2
              simpa using h2.1
            · simp only [Bool.or_eq_true, not_or] at h2
              simpa using h2.2
            · simp only [Bool.and_eq_true, Bool.not_eq_true'] at h3
              exact h3.1.2
            · simp only [Bool.and_eq_true, Bool.not_eq_true'] at h3
              exact h3.2
          · obtain ⟨m0, hm0, hprops⟩ := ih hmem
            exact ⟨m0, List.mem_cons_of_mem m hm0, hprops⟩
        · obtain ⟨m0, hm0, hprops⟩ := ih hkw
          exact ⟨m0, List.mem_cons_of_mem m hm0, hprops⟩

/-- C9 witness: the property applied at a concrete member list holding one
clean method "go", one method owned by Selenium2Library, one owned by a direct
base of Selenium2Library, one underscore-named method, one excluded method and
one non-method attribute; "go_My_Page" is the keyword list's sole element. -/
theorem c9_keywords_only_clean_methods_witness :
    ∃ m ∈ [(⟨"go", true, false, false⟩ : Member), ⟨"click", true, true, false⟩,
        ⟨"other", true, false, true⟩, ⟨"_hid", true, false, false⟩,
        ⟨"skipme", true, false, false⟩, ⟨"attr", false, false, false⟩],
      m.isMethod = true ∧ m.funcInS2L = false ∧ m.funcInS2LDirectBase = false ∧
      pyStartsWith m.name "_" = false ∧ is_method_excluded ["skipme"] m.name = false ∧
      "go_My_Page" = get_robot_alias [] m.name "My_Page" :=
  c9_keywords_only_clean_methods ["skipme"] [] "My_Page"
    [⟨"go", true, false, false⟩, ⟨"click", true, true, false⟩, ⟨"other", true, false, true⟩,
     ⟨"_hid", true, false, false⟩, ⟨"skipme", true, false, false⟩,
     ⟨"attr", false, false, false⟩] "go_My_Page" (by decide)

/-!
Helper lemmas about the selector merge, used for C10.
-/

/-- Newly assigned keys are present. -/
theorem dictSet_hasKey_self (d : List (String × String)) (k v : String) :
    dictHasKey (dictSet d k v) k = true := by
  unfold dictSet
  split
  · rename_i h
    unfold dictHasKey at h ⊢
    simp only [List.any_eq_true] at h ⊢
    obtain ⟨p, hp, hpk⟩ := h
    exact ⟨(k, v), List.mem_map.mpr ⟨p, hp, by simp [hpk]⟩, by simp⟩
  · unfold dictHasKey
    simp

/-- Dict assignment never removes a key. -/
theorem dictSet_hasKey_mono (d : List (String × String)) (k k2 v : String)
    (h : dictHasKey d k = true) : dictHasKey (dictSet d k2 v) k = true := by
  unfold dictSet
  split
  · unfold dictHasKey at h ⊢
    simp only [List.any_eq_true] at h ⊢
    obtain ⟨p, hp, hpk⟩ := h
    by_cases hc : (p.1 == k2) = true
    · refine ⟨(k2, v), List.mem_map.mpr ⟨p, hp, by simp [hc]⟩, ?_⟩
      have h1 : p.1 = k := by simpa using hpk
      have h2 : p.1 = k2 := by simpa using hc
      simp [← h2, h1]
    · exact ⟨p, List.mem_map.mpr ⟨p, hp, by simp [hc]⟩, hpk⟩
  · unfold dictHasKey at h ⊢
    simp only [List.any_append, Bool.or_eq_true]
    exact Or.inl h

/-- A successful merge step assigns decl.key to decl.value. -/
theorem mergeDecl_ok_dict (fs : Bool) (st : MergeState) (d : SelDecl) (st' : MergeState)
    (h : mergeDecl fs st d = .ok st') : st'.dict = dictSet st.dict d.key d.value := by
  unfold mergeDecl at h
  split at h
  · split at h
    · split at h
      · cases h
        rfl
      · cases h
        rfl
    · cases h
  · cases h
    rfl

/-- A failing merge step reports its own declaration's key. -/
theorem mergeDecl_error_is_dup (fs : Bool) (st : MergeState) (d : SelDecl) (e : PyErr)
    (h : mergeDecl fs st d = .error e) : e = .DuplicateKeyException d.key := by
  unfold mergeDecl at h
  split at h
  · split at h
    · split at h
      · cases h
      · cases h
    · cases h
      rfl
  · cases h

/-- A merge step with from_subclass False fails on an already-present key. -/
theorem mergeDecl_false_dup (st : MergeState) (d : SelDecl)
    (h : dictHasKey st.dict d.key = true) :
    mergeDecl false st d = .error (.DuplicateKeyException d.key) := by
  unfold mergeDecl
  simp [h]

/-- Keys survive a successful SelectorsDict.merge. -/
theorem mergeSelectors_hasKey_mono (k : String) :
    ∀ (ds : List SelDecl) (st st' : MergeState) (fs : Bool),
    dictHasKey st.dict k = true → mergeSelectors st ds fs = .ok st' →
    dictHasKey st'.dict k = true := by
  intro ds
  induction ds with
  | nil =>
    intro st st' fs hk h
    rw [mergeSelectors] at h
    cases h
    exact hk
  | cons d rest ih =>
    intro st st' fs hk h
    rw [mergeSelectors] at h
    cases hmd : mergeDecl fs st d with
    | error e => rw [hmd] at h; cases h
    | ok st1 =>
      rw [hmd] at h
      have hk1 : dictHasKey st1.dict k = true := by
        rw [mergeDecl_ok_dict fs st d st1 hmd]
        exact dictSet_hasKey_mono _ _ _ _ hk
      exact ih st1 st' fs hk1 h

/-- A successful SelectorsDict.merge records every merged declaration's key. -/
theorem mergeSelectors_adds_key (k : String) :
    ∀ (ds : List SelDecl) (st st' : MergeState) (fs : Bool) (d : SelDecl),
    d ∈ ds → d.key = k → mergeSelectors st ds fs = .ok st' →
    dictHasKey st'.dict k = true := by
  intro ds
  induction ds with
  | nil => intro st st' fs d hd; cases hd
  | cons d0 rest ih =>
    intro st st' fs d hd hkey h
    rw [mergeSelectors] at h
    cases hmd : mergeDecl fs st d0 with
    | error e => rw [hmd] at h; cases h
    | ok st1 =>
      rw [hmd] at h
      rcases List.mem_cons.mp hd with rfl | hmem
      · have hk1 : dictHasKey st1.dict k = true := by
          rw [mergeDecl_ok_dict fs st d st1 hmd, ← hkey]
          exact dictSet_hasKey_self _ _ _
        exact mergeSelectors_hasKey_mono k rest st1 st' fs hk1 h
      · exact ih st1 st' fs d hmem hkey h

/-- SelectorsDict.merge with from_subclass False fails with a
DuplicateKeyException whenever a merged declaration's key is already
present in the accumulator. -/
theorem mergeSelectors_dup_error (k : String) :
    ∀ (ds : List SelDecl) (st : MergeState) (d : SelDecl),
    dictHasKey st.dict k = true → d ∈ ds → d.key = k →
    ∃ kk, mergeSelectors st ds false = .error (.DuplicateKeyException kk) := by
  intro ds
  induction ds with
  | nil => intro st d hk hd; cases hd
  | cons d0 rest ih =>
    intro st d hk hd hkey
    rw [mergeSelectors]
    cases hmd : mergeDecl false st d0 with
    | error e =>
      refine ⟨d0.key, ?_⟩
      rw [mergeDecl_error_is_dup false st d0 e hmd]
    | ok st1 =>
      have hnot : dictHasKey st.dict d0.key = false := by
        by_contra hco
        rw [Bool.not_eq_false] at hco
        rw [mergeDecl_false_dup st d0 hco] at hmd
        cases hmd
      have hdrest : d ∈ rest := by
        rcases List.mem_cons.mp hd with rfl | hmem
        · rw [hkey] at hnot
          rw [hnot] at hk
          cases hk
        · exact hmem
      have hk1 : dictHasKey st1.dict k = true := by
        rw [mergeDecl_ok_dict false st d0 st1 hmd]
        exact dictSet_hasKey_mono _ _ _ _ hk
      obtain ⟨kk, hkk⟩ := ih st1 d hk1 hdrest hkey
      exact ⟨kk, hkk⟩

/-- SelectorsDict.merge raises nothing but DuplicateKeyException. -/
theorem mergeSelectors_error_is_dup :
    ∀ (ds : List SelDecl) (st : MergeState) (fs : Bool) (e : PyErr),
    mergeSelectors st ds fs = .error e → ∃ kk, e = .DuplicateKeyException kk := by
  intro ds
  induction ds with
  | nil =>
    intro st fs e h
    rw [mergeSelectors] at h
    cases h
  | cons d rest ih =>
    intro st fs e h
    rw [mergeSelectors] at h
    cases hmd : mergeDecl fs st d with
    | error e0 =>
      rw [hmd] at h
      cases h
      exact ⟨d.key, mergeDecl_error_is_dup fs st d _ hmd⟩
    | ok st1 =>
      rw [hmd] at h
      exact ih st1 fs e h

/-- Every key of a dict appears among its declaration view, unmarked. -/
theorem dictToDecls_mem (d : List (String × String)) (k : String)
    (h : dictHasKey d k = true) : ∃ dc ∈ dictToDecls d, dc.key = k := by
  unfold dictHasKey at h
  simp only [List.any_eq_true] at h
  obtain ⟨p, hp, hpk⟩ := h
  exact ⟨⟨p.1, false, p.2⟩, List.mem_map.mpr ⟨p, hp, rfl⟩, by simpa using hpk⟩

/-- Keys survive a successful base-dict merge loop. -/
theorem mergeBaseDicts_hasKey_mono (k : String) :
    ∀ (rs : List MergeState) (st st' : MergeState),
    dictHasKey st.dict k = true → mergeBaseDicts st rs = .ok st' →
    dictHasKey st'.dict k = true := by
  intro rs
  induction rs with
  | nil =>
    intro st st' hk h
    rw [mergeBaseDicts] at h
    cases h
    exact hk
  | cons r rest ih =>
    intro st st' hk h
    rw [mergeBaseDicts] at h
    cases hms : mergeSelectors st (dictToDecls r.dict) false with
    | error e => rw [hms] at h; cases h
    | ok st1 =>
      rw [hms] at h
      exact ih st1 st' (mergeSelectors_hasKey_mono k _ st st1 false hk hms) h

/-- The base-dict merge loop raises nothing but DuplicateKeyException. -/
theorem mergeBaseDicts_error_is_dup :
    ∀ (rs : List MergeState) (st : MergeState) (e : PyErr),
    mergeBaseDicts st rs = .error e → ∃ kk, e = .DuplicateKeyException kk := by
  intro rs
  induction rs with
  | nil =>
    intro st e h
    rw [mergeBaseDicts] at h
    cases h
  | cons r rest ih =>
    intro st e h
    rw [mergeBaseDicts] at h
    cases hms : mergeSelectors st (dictToDecls r.dict) false with
    | error e0 =>
      rw [hms] at h
      cases h
      exact mergeSelectors_error_is_dup _ st false _ hms
    | ok st1 =>
      rw [hms] at h
      exact ih st1 e h

/-- The base-dict merge loop splits over list concatenation. -/
theorem mergeBaseDicts_append (xs ys : List MergeState) :
    ∀ st : MergeState, mergeBaseDicts st (xs ++ ys) =
      match mergeBaseDicts st xs with
      | .error e => .error e
      | .ok st1 => mergeBaseDicts st1 ys := by
  induction xs with
  | nil =>
    intro st
    rfl
  | cons r rest ih =>
    intro st
    rw [List.cons_append, mergeBaseDicts, mergeBaseDicts]
    cases hms : mergeSelectors st (dictToDecls r.dict) false with
    | error e => rfl
    | ok st1 => exact ih st1

/-- Merging a run of base dicts in which two dicts share a key fails with a
DuplicateKeyException, whatever else the run contains. -/
theorem mergeBaseDicts_conflict (k : String) (p q t : List MergeState)
    (ri rj : MergeState) (st : MergeState)
    (hki : dictHasKey ri.dict k = true) (hkj : dictHasKey rj.dict k = true) :
    ∃ kk, mergeBaseDicts st (p ++ ri :: (q ++ rj :: t))
      = .error (.DuplicateKeyException kk) := by
  rw [mergeBaseDicts_append]
  cases hp : mergeBaseDicts st p with
  | error e =>
    obtain ⟨kk, hkk⟩ := mergeBaseDicts_error_is_dup p st e hp
    exact ⟨kk, by rw [hkk]⟩
  | ok stp =>
    show ∃ kk, mergeBaseDicts stp (ri :: (q ++ rj :: t))
      = .error (.DuplicateKeyException kk)
    rw [mergeBaseDicts]
    cases hmi : mergeSelectors stp (dictToDecls ri.dict) false with
    | error e =>
      obtain ⟨kk, hkk⟩ := mergeSelectors_error_is_dup _ stp false e hmi
      exact ⟨kk, by rw [hkk]⟩
    | ok sti =>
      show ∃ kk, mergeBaseDicts sti (q ++ rj :: t)
        = .error (.DuplicateKeyException kk)
      obtain ⟨dci, hdci, hdcik⟩ := dictToDecls_mem ri.dict k hki
      have hksti : dictHasKey sti.dict k = true :=
        mergeSelectors_adds_key k _ stp sti false dci hdci hdcik hmi
      rw [mergeBaseDicts_append]
      cases hq : mergeBaseDicts sti q with
      | error e =>
        obtain ⟨kk, hkk⟩ := mergeBaseDicts_error_is_dup q sti e hq
        exact ⟨kk, by rw [hkk]⟩
      | ok stq =>
        show ∃ kk, mergeBaseDicts stq (rj :: t)
          = .error (.DuplicateKeyException kk)
        have hkstq : dictHasKey stq.dict k = true :=
          mergeBaseDicts_hasKey_mono k q sti stq hksti hq
        rw [mergeBaseDicts]
        obtain ⟨dcj, hdcj, hdcjk⟩ := dictToDecls_mem rj.dict k hkj
        obtain ⟨kk, hkk⟩ := mergeSelectors_dup_error k (dictToDecls rj.dict) stq dcj
          hkstq hdcj hdcjk
        exact ⟨kk, by rw [hkk]⟩

/-- C10: for a class whose base list contains two classes whose recursively
merged selector sets (both computed successfully) share a key, computing the
class's selectors raises DuplicateKeyException — the merge compares only the
bases' merged dicts, never where a key was originally declared, so diamond
inheritance through one shared declaring ancestor conflicts all the same. -/
theorem c10_sibling_merged_sets_conflict (own : List SelDecl) (bs : PyClassList)
    (p q t : List MergeState) (ri rj : MergeState) (k : String)
    (hbases : getBaseSelectors bs = .ok (p ++ ri :: (q ++ rj :: t)))
    (hki : dictHasKey ri.dict k = true) (hkj : dictHasKey rj.dict k = true) :
    ∃ kk, getClassSelectors (.mk own bs) = .error (.DuplicateKeyException kk) := by
  rw [getClassSelectors, hbases]
  obtain ⟨kk, hkk⟩ := mergeBaseDicts_conflict k p q t ri rj
    ⟨[], (p ++ ri :: (q ++ rj :: t)).foldr (fun r acc => r.warnings ++ acc) []⟩ hki hkj
  refine ⟨kk, ?_⟩
  show (match mergeBaseDicts
      ⟨[], (p ++ ri :: (q ++ rj :: t)).foldr (fun r acc => r.warnings ++ acc) []⟩
      (p ++ ri :: (q ++ rj :: t)) with
    | Except.error e => Except.error e
    | Except.ok st1 => mergeSelectors st1 own true)
    = Except.error (PyErr.DuplicateKeyException kk)
  rw [hkk]

/-- C10 witness: the diamond in which classes B and C both extend a single
class A declaring key "k", and class D extends B and C: B's and C's merged
sets each carry "k" inherited from the one shared ancestor, and computing D's
selectors raises DuplicateKeyException. -/
theorem c10_sibling_merged_sets_conflict_witness :
    ∃ kk, getClassSelectors (.mk []
        (.cons (.mk [] (.cons (.mk [⟨"k", false, "v"⟩] .nil) .nil))
        (.cons (.mk [] (.cons (.mk [⟨"k", false, "v"⟩] .nil) .nil)) .nil)))
      = .error (.DuplicateKeyException kk) :=
  c10_sibling_merged_sets_conflict []
    (.cons (.mk [] (.cons (.mk [⟨"k", false, "v"⟩] .nil) .nil))
      (.cons (.mk [] (.cons (.mk [⟨"k", false, "v"⟩] .nil) .nil)) .nil))
    [] [] [] ⟨[("k", "v")], []⟩ ⟨[("k", "v")], []⟩ "k"
    (by decide) (by decide) (by decide)
